import Mathlib

/-!
Verification development for the gophercheck static analyzer.

Each definition below is a shallow embedding of a function of the Go source
tree, translated mechanically:
  * Go structs become Lean structures, Go enums become inductives;
  * Go `int` becomes `Int` (or `Nat` where the source value is a count that
    is provably non-negative);
  * Go maps become association lists in insertion order, with the Go
    zero-value-on-missing-key semantics made explicit;
  * visitor state mutated through pointers becomes explicit state threading.

Floating-point note: `AnalysisResult.CalculateScore` multiplies the integer
base penalties 5/15/30/50 by the float64 literals 1.2/1.5/1.8 and truncates
with `int(...)`.  For these twelve reachable products the IEEE-754 double
computation `int(float64(b) * m)` yields exactly the same integer as the
exact rational computation `b * (10*m) / 10` with truncating division
(checked case by case: e.g. `float64(50)*1.8` rounds to exactly `90.0`,
`float64(15)*1.2` rounds to exactly `18.0`), so the embedding uses the
rational form.
-/

set_option autoImplicit false

namespace GopherCheck

/-- `models.Severity`: `SeverityLow = 0 < SeverityMedium < SeverityHigh <
SeverityCritical` (internal/models/issue.go). -/
inductive Severity where
  | low
  | medium
  | high
  | critical
deriving DecidableEq, Repr

/-- `Severity.String()` from internal/models/issue.go.  The `default:
"UNKNOWN"` arm of the Go switch is unreachable because the four constants
are the only values of the type ever constructed. -/
def Severity.str : Severity → String
  | .low => "LOW"
  | .medium => "MEDIUM"
  | .high => "HIGH"
  | .critical => "CRITICAL"

/-- `models.IssueType` is a Go string type. -/
abbrev IssueType := String

def issueNestedLoops : IssueType := "nested_loops"
def issueStringConcat : IssueType := "string_concatenation"
def issueInefficinetDS : IssueType := "inefficient_data_structure"
def issueCyclomaticComplex : IssueType := "cyclomatic_complexity"
def issueMemoryAlloc : IssueType := "memory_allocation"
def issueSliceGrowth : IssueType := "slice_growth"
def issueFunctionLength : IssueType := "function_length"
def issueImportCycle : IssueType := "import_cycle"

/-- `models.Issue` (internal/models/issue.go).  The free-text fields
`Message`, `Suggestion`, `Complexity` and `CodeSnippet` are generated by
`fmt.Sprintf` from fixed templates and are never read back by any code the
claims are about, and `Line`/`Column` are `token.FileSet` position
plumbing, so none of them are carried in the embedding. -/
structure Issue where
  type : IssueType
  severity : Severity
  file : String
  function : String
deriving DecidableEq, Repr

/-- A Go `map[string]int`: association list in insertion order; a missing
key reads as the zero value 0. -/
abbrev CountMap := List (String × Nat)

def CountMap.get (m : CountMap) (k : String) : Nat :=
  match m.lookup k with
  | some v => v
  | none => 0

/-- `m[k]++` on a Go `map[string]int`: increments in place if the key is
present, otherwise inserts the key with value 1. -/
def CountMap.incr : CountMap → String → CountMap
  | [], k => [(k, 1)]
  | (k', v) :: rest, k =>
      if k' = k then (k', v + 1) :: rest else (k', v) :: CountMap.incr rest k

/-- Sum of all values stored in the map. -/
def CountMap.total (m : CountMap) : Nat :=
  (m.map (·.2)).sum

/-- `models.AnalysisResult` (internal/models/issue.go). -/
structure AnalysisResult where
  files : List String
  totalIssues : Int
  issuesBySeverity : CountMap
  issues : List Issue
  performanceScore : Int
  analysisDuration : String
deriving Repr

/-- `models.NewAnalysisResult()`. -/
def newAnalysisResult : AnalysisResult :=
  { files := []
    totalIssues := 0
    issuesBySeverity := []
    issues := []
    performanceScore := 0
    analysisDuration := "" }

/-- `(*AnalysisResult).AddIssue` (internal/models/issue.go lines 76-80). -/
def AnalysisResult.addIssue (ar : AnalysisResult) (issue : Issue) : AnalysisResult :=
  { ar with
    issues := ar.issues ++ [issue]
    totalIssues := ar.totalIssues + 1
    issuesBySeverity := ar.issuesBySeverity.incr issue.severity.str }

/-- The `switch issue.Severity` of `CalculateScore`: base penalty per
severity. -/
def basePenalty : Severity → Nat
  | .low => 5
  | .medium => 15
  | .high => 30
  | .critical => 50

/-- The `switch issue.Type` of `CalculateScore`: category multipliers,
written as exact truncating rational arithmetic (see the float note in the
file header; agrees with the Go float64 computation on every reachable
base penalty). -/
def applyMultiplier (t : IssueType) (b : Nat) : Nat :=
  if t = issueCyclomaticComplex ∨ t = issueFunctionLength then b * 12 / 10
  else if t = issueNestedLoops ∨ t = issueMemoryAlloc then b * 15 / 10
  else if t = issueImportCycle then b * 18 / 10
  else b

/-- Penalty contributed by one issue in the loop body of `CalculateScore`. -/
def issuePenalty (i : Issue) : Nat :=
  applyMultiplier i.type (basePenalty i.severity)

/-- The accumulated `penalty` over the issue list. -/
def totalPenalty (issues : List Issue) : Nat :=
  (issues.map issuePenalty).sum

/-- `(*AnalysisResult).CalculateScore` (internal/models/issue.go lines
82-118): 100 if `TotalIssues == 0`, otherwise `max(100 - penalty, 0)`. -/
def AnalysisResult.calculateScore (ar : AnalysisResult) : AnalysisResult :=
  if ar.totalIssues = 0 then { ar with performanceScore := 100 }
  else { ar with performanceScore := max (100 - (totalPenalty ar.issues : Int)) 0 }

/-- Folding `AddIssue` over a list of findings starting from
`NewAnalysisResult()` — the only way results are built in
`Analyzer.AnalyzeFiles`. -/
def buildResult (issues : List Issue) : AnalysisResult :=
  issues.foldl AnalysisResult.addIssue newAnalysisResult

/-! ## Configuration (internal/config/config.go)

Only the fields read by the modelled detectors and builders are carried.
Numeric thresholds are Go `int`, embedded as `Int`. -/

/-- `config.ThresholdConfig`. -/
structure ThresholdConfig where
  enabled : Bool
  mediumThreshold : Int
  highThreshold : Int
  criticalThreshold : Int
deriving Repr

/-- `config.NestedLoopConfig`. -/
structure NestedLoopConfig where
  enabled : Bool
  maxDepth : Int
  ignoreTest : Bool
deriving Repr

/-- `config.ImportCycleConfig`. -/
structure ImportCycleConfig where
  enabled : Bool
  maxCycleLength : Int
  ignoreTestPackages : Bool
  ignoreVendor : Bool
  excludePackages : List String
deriving Repr

/-- `config.AllocationConfig`. -/
structure AllocationConfig where
  enabled : Bool
  detectInLoops : Bool
  requireCapacityHints : Bool
  minLoopIterations : Int
deriving Repr

/-- `config.ComplexityRules` (FunctionLength omitted: unused by the
modelled code). -/
structure ComplexityRules where
  enabled : Bool
  cyclomaticComplexity : ThresholdConfig
deriving Repr

/-- `config.PerformanceRules` (StringConcat/DataStructure omitted: unused
by the modelled code). -/
structure PerformanceRules where
  enabled : Bool
  nestedLoops : NestedLoopConfig
deriving Repr

/-- `config.QualityRules`. -/
structure QualityRules where
  enabled : Bool
  importCycles : ImportCycleConfig
deriving Repr

/-- `config.MemoryRules` (SliceGrowth omitted: unused by the modelled
code). -/
structure MemoryRules where
  enabled : Bool
  allocation : AllocationConfig
deriving Repr

/-- `config.RulesConfig`. -/
structure RulesConfig where
  complexity : ComplexityRules
  performance : PerformanceRules
  quality : QualityRules
  memory : MemoryRules
deriving Repr

/-- `config.Config` (version/output/files metadata omitted: unused by the
modelled code). -/
structure Config where
  rules : RulesConfig
deriving Repr

/-- `config.DefaultConfig()` (internal/config/config.go lines 197-289),
restricted to the carried fields.  Note `NestedLoops.MaxDepth` is 2 here. -/
def defaultConfig : Config :=
  { rules :=
    { complexity :=
        { enabled := true
          cyclomaticComplexity :=
            { enabled := true
              mediumThreshold := 10
              highThreshold := 15
              criticalThreshold := 25 } }
      performance :=
        { enabled := true
          nestedLoops :=
            { enabled := true
              maxDepth := 2
              ignoreTest := true } }
      quality :=
        { enabled := true
          importCycles :=
            { enabled := true
              maxCycleLength := 5
              ignoreTestPackages := true
              ignoreVendor := true
              excludePackages := [] } }
      memory :=
        { enabled := true
          allocation :=
            { enabled := true
              detectInLoops := true
              requireCapacityHints := true
              minLoopIterations := 5 } } } }

/-! ## Syntax trees

A closed embedding of the `go/ast` node kinds dispatched on by the modelled
code.  Conventions:
  * wherever `go/ast` has a `*BlockStmt` that the source only ever unwraps
    with `.List` (function bodies, loop bodies, clause bodies), the block is
    embedded directly as its statement list — `BlockStmt` nodes themselves
    contribute nothing in any modelled function; an `IfStmt`'s `Else` field
    keeps the wrapper (`blockStmt`) because `calculateComplexity` type-tests
    whether `Else` is an `*ast.IfStmt`;
  * loop nodes carry a numeric `id` standing for their pointer identity,
    which is how `context.LoopContext` (a `map[ast.Node]*LoopInfo`) keys
    them;
  * `RangeStmt.Key`/`Value` (plain identifiers in every analyzed shape) are
    not carried. -/

/-- The two `token.Token` binary operators `calculateComplexity` tests for,
plus an opaque remainder. -/
inductive BinOp where
  | land
  | lor
  | lss
  | otherOp
deriving DecidableEq, Repr

/-- `token.INT` versus every other `BasicLit` kind. -/
inductive LitKind where
  | int
  | otherLit
deriving DecidableEq, Repr

/-- `token.BREAK` versus the other `BranchStmt` tokens. -/
inductive BranchTok where
  | brk
  | otherBranch
deriving DecidableEq, Repr

/-- Go syntax-tree nodes (see the conventions above). -/
inductive Ast where
  | file (decls : List Ast)
  | funcDecl (name : Option String) (body : Option (List Ast))
  | blockStmt (stmts : List Ast)
  | ifStmt (ini : Option Ast) (cond : Ast) (body : List Ast) (els : Option Ast)
  | forStmt (id : Nat) (ini : Option Ast) (cond : Option Ast) (post : Option Ast)
      (body : List Ast)
  | rangeStmt (id : Nat) (x : Ast) (body : List Ast)
  | switchStmt (clauses : List Ast)
  | typeSwitchStmt (clauses : List Ast)
  | caseClause (hasList : Bool) (body : List Ast)
  | commClause (body : List Ast)
  | funcLit (body : List Ast)
  | binaryExpr (op : BinOp) (x y : Ast)
  | callExpr (callee : Ast) (args : List Ast)
  | ident (name : String)
  | basicLit (kind : LitKind) (value : String)
  | assignStmt (lhs rhs : List Ast)
  | branchStmt (tok : BranchTok)
  | returnStmt (results : List Ast)
  | exprStmt (x : Ast)
  | arrayType (len : Option Ast) (elt : Ast)
  | mapType (key val : Ast)
  | selectorExpr (x : Ast) (sel : String)
deriving Repr

/-! ## Cyclomatic complexity detector
(internal/analyzer/detectors/complexity.go) -/

/-- The `node.Else != nil` arm inside `calculateComplexity`: a plain `else`
adds 1, an `else if` adds nothing at the outer node (it is counted when the
inner `IfStmt` is visited). -/
def elseAdds : Option Ast → Nat
  | some (.ifStmt ..) => 0
  | some _ => 1
  | none => 0

mutual
/-- The sum of all increments `calculateComplexity`'s `ast.Inspect` closure
performs on this node and its descendants.  `FuncLit` prunes its subtree
(the closure returns `false`). -/
def complexityOf : Ast → Nat
  | .file decls => complexityList decls
  | .funcDecl _ body =>
      match body with
      | some stmts => complexityList stmts
      | none => 0
  | .blockStmt stmts => complexityList stmts
  | .ifStmt ini cond body els =>
      1 + elseAdds els + complexityOpt ini + complexityOf cond
        + complexityList body + complexityOpt els
  | .forStmt _ ini cond post body =>
      1 + complexityOpt ini + complexityOpt cond + complexityOpt post
        + complexityList body
  | .rangeStmt _ x body => 1 + complexityOf x + complexityList body
  | .switchStmt clauses => 1 + complexityList clauses
  | .typeSwitchStmt clauses => 1 + complexityList clauses
  | .caseClause hasList body => (if hasList then 1 else 0) + complexityList body
  | .commClause body => 1 + complexityList body
  | .funcLit _ => 0
  | .binaryExpr op x y =>
      (if op = .land ∨ op = .lor then 1 else 0) + complexityOf x + complexityOf y
  | .callExpr callee args => complexityOf callee + complexityList args
  | .ident _ => 0
  | .basicLit _ _ => 0
  | .assignStmt lhs rhs => complexityList lhs + complexityList rhs
  | .branchStmt _ => 0
  | .returnStmt results => complexityList results
  | .exprStmt x => complexityOf x
  | .arrayType len elt => complexityOpt len + complexityOf elt
  | .mapType key val => complexityOf key + complexityOf val
  | .selectorExpr x _ => complexityOf x

/-- `complexityOf` over an optional child (`ast.Inspect` skips nil). -/
def complexityOpt : Option Ast → Nat
  | some a => complexityOf a
  | none => 0

/-- `complexityOf` summed over a child list. -/
def complexityList : List Ast → Nat
  | [] => 0
  | a :: rest => complexityOf a + complexityList rest
end

/-- `complexityVisitor.calculateComplexity`: base complexity 1 plus the
closure's increments over the body. -/
def calculateComplexity (body : List Ast) : Nat :=
  1 + complexityList body

/-- Effective medium threshold: `threshold := 10` overridden from config
when present and enabled.  This computation appears twice in the source,
once in `complexityVisitor.Visit` (lines 61-64) and once in
`calculateSeverity` (lines 145-153); both instances are this function. -/
def cycloMediumThreshold (cfg : Option Config) : Int :=
  match cfg with
  | some c =>
      if c.rules.complexity.cyclomaticComplexity.enabled then
        c.rules.complexity.cyclomaticComplexity.mediumThreshold
      else 10
  | none => 10

/-- Effective high threshold of `calculateSeverity` (default 15). -/
def cycloHighThreshold (cfg : Option Config) : Int :=
  match cfg with
  | some c =>
      if c.rules.complexity.cyclomaticComplexity.enabled then
        c.rules.complexity.cyclomaticComplexity.highThreshold
      else 15
  | none => 15

/-- Effective critical threshold of `calculateSeverity` (default 25). -/
def cycloCriticalThreshold (cfg : Option Config) : Int :=
  match cfg with
  | some c =>
      if c.rules.complexity.cyclomaticComplexity.enabled then
        c.rules.complexity.cyclomaticComplexity.criticalThreshold
      else 25
  | none => 25

/-- `complexityVisitor.calculateSeverity` (complexity.go lines 144-165). -/
def complexitySeverity (cfg : Option Config) (complexity : Nat) : Severity :=
  if (complexity : Int) ≤ cycloMediumThreshold cfg then .medium
  else if (complexity : Int) ≤ cycloHighThreshold cfg then .high
  else if (complexity : Int) ≤ cycloCriticalThreshold cfg then .critical
  else .critical

/-- `complexityVisitor.createComplexityIssue` (complexity.go lines
121-142), restricted to the carried `Issue` fields. -/
def createComplexityIssue (cfg : Option Config) (filename : String)
    (name : Option String) (complexity : Nat) : Issue :=
  { type := issueCyclomaticComplex
    severity := complexitySeverity cfg complexity
    file := filename
    function := name.getD "anonymous" }

mutual
/-- `complexityVisitor.Visit` threaded through `ast.Walk`: the visitor
returns itself for every node, so the whole tree is traversed; a `FuncDecl`
with a body is measured and reported when its complexity strictly exceeds
the medium threshold (complexity.go lines 58-70). -/
def complexityVisit (cfg : Option Config) (filename : String) : Ast → List Issue
  | .file decls => complexityVisitList cfg filename decls
  | .funcDecl name body =>
      match body with
      | some stmts =>
          let complexity := calculateComplexity stmts
          (if (complexity : Int) > cycloMediumThreshold cfg then
            [createComplexityIssue cfg filename name complexity]
          else []) ++ complexityVisitList cfg filename stmts
      | none => []
  | .blockStmt stmts => complexityVisitList cfg filename stmts
  | .ifStmt ini cond body els =>
      complexityVisitOpt cfg filename ini ++ complexityVisit cfg filename cond
        ++ complexityVisitList cfg filename body ++ complexityVisitOpt cfg filename els
  | .forStmt _ ini cond post body =>
      complexityVisitOpt cfg filename ini ++ complexityVisitOpt cfg filename cond
        ++ complexityVisitOpt cfg filename post ++ complexityVisitList cfg filename body
  | .rangeStmt _ x body =>
      complexityVisit cfg filename x ++ complexityVisitList cfg filename body
  | .switchStmt clauses => complexityVisitList cfg filename clauses
  | .typeSwitchStmt clauses => complexityVisitList cfg filename clauses
  | .caseClause _ body => complexityVisitList cfg filename body
  | .commClause body => complexityVisitList cfg filename body
  | .funcLit body => complexityVisitList cfg filename body
  | .binaryExpr _ x y =>
      complexityVisit cfg filename x ++ complexityVisit cfg filename y
  | .callExpr callee args =>
      complexityVisit cfg filename callee ++ complexityVisitList cfg filename args
  | .ident _ => []
  | .basicLit _ _ => []
  | .assignStmt lhs rhs =>
      complexityVisitList cfg filename lhs ++ complexityVisitList cfg filename rhs
  | .branchStmt _ => []
  | .returnStmt results => complexityVisitList cfg filename results
  | .exprStmt x => complexityVisit cfg filename x
  | .arrayType len elt =>
      complexityVisitOpt cfg filename len ++ complexityVisit cfg filename elt
  | .mapType key val =>
      complexityVisit cfg filename key ++ complexityVisit cfg filename val
  | .selectorExpr x _ => complexityVisit cfg filename x

/-- `complexityVisit` over an optional child. -/
def complexityVisitOpt (cfg : Option Config) (filename : String) :
    Option Ast → List Issue
  | some a => complexityVisit cfg filename a
  | none => []

/-- `complexityVisit` over a child list. -/
def complexityVisitList (cfg : Option Config) (filename : String) :
    List Ast → List Issue
  | [] => []
  | a :: rest =>
      complexityVisit cfg filename a ++ complexityVisitList cfg filename rest
end

/-- A function body consisting of `n` bare `if` statements: its cyclomatic
complexity is `n + 1`. -/
def ifChainBody (n : Nat) : List Ast :=
  List.replicate n (Ast.ifStmt none (.ident "cond") [] none)

/-- C2 counterexample: under the default configuration a function of
cyclomatic complexity 11 — inside the inclusive range from just above the
medium threshold (10) up to the high threshold (15) — is reported with
severity High, not Medium as the claim states. -/
theorem C2_counterexample :
    complexityVisit (some defaultConfig) "main.go"
        (.file [.funcDecl (some "f") (some (ifChainBody 10))]) =
      [{ type := issueCyclomaticComplex, severity := .high, file := "main.go",
         function := "f" }] ∧
    calculateComplexity (ifChainBody 10) = 11 ∧
    Severity.high ≠ Severity.medium := by
  refine ⟨rfl, rfl, by decide⟩

/-- C2 (amended): for every function whose computed cyclomatic complexity
exceeds the effective medium threshold, the emitted complexity finding has
severity High when the complexity is at most the high threshold and
Critical otherwise (covering both the range up to the critical threshold
and the open range above it); in particular the severity of an emitted
finding is never Medium — the Medium arm of `calculateSeverity` is
unreachable past the reporting gate. -/
theorem C2_emitted_severity (cfg : Option Config) (filename : String)
    (name : Option String) (body : List Ast)
    (hGt : (calculateComplexity body : Int) > cycloMediumThreshold cfg) :
    (complexityVisit cfg filename (.funcDecl name (some body))).head? =
      some { type := issueCyclomaticComplex
             severity :=
               if (calculateComplexity body : Int) ≤ cycloHighThreshold cfg then
                 Severity.high
               else Severity.critical
             file := filename
             function := name.getD "anonymous" } ∧
    complexitySeverity cfg (calculateComplexity body) ≠ Severity.medium := by
  have hsev : complexitySeverity cfg (calculateComplexity body) =
      if (calculateComplexity body : Int) ≤ cycloHighThreshold cfg then
        Severity.high
      else Severity.critical := by
    unfold complexitySeverity
    rw [if_neg (by omega)]
    split
    · rfl
    · split <;> rfl
  constructor
  · show ((if (calculateComplexity body : Int) > cycloMediumThreshold cfg then
        [createComplexityIssue cfg filename name (calculateComplexity body)]
      else []) ++ complexityVisitList cfg filename body).head? = _
    rw [if_pos hGt]
    show some (createComplexityIssue cfg filename name (calculateComplexity body)) = _
    unfold createComplexityIssue
    rw [hsev]
  · rw [hsev]
    split <;> decide

/-- C2 witness: the general theorem applied to a concrete complexity-11
function under the default configuration. -/
theorem C2_emitted_severity_witness :
    ((calculateComplexity (ifChainBody 10) : Int) >
        cycloMediumThreshold (some defaultConfig)) ∧
    ((complexityVisit (some defaultConfig) "main.go"
          (.funcDecl (some "f") (some (ifChainBody 10)))).head? =
        some { type := issueCyclomaticComplex
               severity :=
                 if (calculateComplexity (ifChainBody 10) : Int) ≤
                     cycloHighThreshold (some defaultConfig) then
                   Severity.high
                 else Severity.critical
               file := "main.go"
               function := (some "f").getD "anonymous" } ∧
      complexitySeverity (some defaultConfig)
          (calculateComplexity (ifChainBody 10)) ≠ Severity.medium) :=
  ⟨by decide,
   C2_emitted_severity (some defaultConfig) "main.go" (some "f") (ifChainBody 10)
     (by decide)⟩

/-- C8: a function with a body yields a complexity finding exactly when its
computed cyclomatic complexity strictly exceeds the effective medium
threshold; at or below the threshold (in particular exactly at it) the
visitor contributes nothing beyond the recursion into the body.  The
effective threshold is 10 both under the default configuration and with no
configuration. -/
theorem C8_reporting_gate :
    cycloMediumThreshold (some defaultConfig) = 10 ∧
    cycloMediumThreshold none = 10 ∧
    ∀ (cfg : Option Config) (filename : String) (name : Option String)
      (body : List Ast),
      (complexityVisit cfg filename (.funcDecl name (some body)) =
          complexityVisitList cfg filename body) ↔
        (calculateComplexity body : Int) ≤ cycloMediumThreshold cfg := by
  refine ⟨rfl, rfl, fun cfg filename name body => ?_⟩
  have hshape : complexityVisit cfg filename (.funcDecl name (some body)) =
      (if (calculateComplexity body : Int) > cycloMediumThreshold cfg then
        [createComplexityIssue cfg filename name (calculateComplexity body)]
      else []) ++ complexityVisitList cfg filename body := rfl
  constructor
  · intro h
    by_contra hGt
    push_neg at hGt
    rw [hshape, if_pos hGt] at h
    have := congrArg List.length h
    simp at this
  · intro hLe
    rw [hshape, if_neg (by omega)]
    rfl

/-- C8 witness: a concrete function with complexity exactly 10 (nine `if`
statements) produces no finding under the default configuration. -/
theorem C8_reporting_gate_witness :
    complexityVisit (some defaultConfig) "main.go"
        (.funcDecl (some "g") (some (ifChainBody 9))) =
      complexityVisitList (some defaultConfig) "main.go" (ifChainBody 9) :=
  (C8_reporting_gate.2.2 (some defaultConfig) "main.go" (some "g")
      (ifChainBody 9)).mpr (by decide)

/-! ## Score aggregation (internal/models/issue.go) -/

/-- Incrementing a count map grows the sum of its values by exactly one. -/
theorem CountMap.total_incr (m : CountMap) (k : String) :
    (m.incr k).total = m.total + 1 := by
  induction m with
  | nil => rfl
  | cons hd tl ih =>
      obtain ⟨k', v⟩ := hd
      by_cases h : k' = k
      · simp [CountMap.incr, h, CountMap.total]
        omega
      · simp [CountMap.incr, h, CountMap.total] at ih ⊢
        omega

/-- Effect of a fold of `AddIssue` on the finding list, the total counter
and the by-severity counts. -/
theorem foldl_addIssue_spec (l : List Issue) (r : AnalysisResult) :
    (l.foldl AnalysisResult.addIssue r).issues = r.issues ++ l ∧
    (l.foldl AnalysisResult.addIssue r).totalIssues = r.totalIssues + l.length ∧
    (l.foldl AnalysisResult.addIssue r).issuesBySeverity.total =
      r.issuesBySeverity.total + l.length := by
  induction l generalizing r with
  | nil => simp
  | cons a rest ih =>
      obtain ⟨h1, h2, h3⟩ := ih (r.addIssue a)
      refine ⟨?_, ?_, ?_⟩
      · rw [List.foldl_cons, h1]
        simp [AnalysisResult.addIssue]
      · rw [List.foldl_cons, h2]
        simp only [AnalysisResult.addIssue, List.length_cons]
        push_cast
        omega
      · rw [List.foldl_cons, h3]
        simp only [AnalysisResult.addIssue, List.length_cons]
        rw [CountMap.total_incr]
        omega

theorem buildResult_issues (l : List Issue) : (buildResult l).issues = l := by
  simpa [buildResult, newAnalysisResult] using (foldl_addIssue_spec l newAnalysisResult).1

theorem buildResult_total (l : List Issue) :
    (buildResult l).totalIssues = l.length := by
  simpa [buildResult, newAnalysisResult] using
    (foldl_addIssue_spec l newAnalysisResult).2.1

/-- Every issue contributes a penalty of at least 5 (the Low base penalty;
every multiplier maps each of the four base penalties to a value no
smaller). -/
theorem issuePenalty_ge_five (i : Issue) : 5 ≤ issuePenalty i := by
  obtain ⟨t, s, f, fn⟩ := i
  cases s <;>
    simp only [issuePenalty, basePenalty, applyMultiplier] <;>
    split_ifs <;> decide

theorem totalPenalty_append (l : List Issue) (i : Issue) :
    totalPenalty (l ++ [i]) = totalPenalty l + issuePenalty i := by
  simp [totalPenalty]

/-- C5: the performance score is monotonically non-increasing under
`AddIssue` followed by recomputation, always lies in [0, 100], and is
exactly 100 for a result with zero findings. -/
theorem C5_score_monotone_and_bounded :
    (∀ (issues : List Issue) (i : Issue),
      (((buildResult issues).addIssue i).calculateScore).performanceScore ≤
        ((buildResult issues).calculateScore).performanceScore) ∧
    (∀ issues : List Issue,
      0 ≤ ((buildResult issues).calculateScore).performanceScore ∧
        ((buildResult issues).calculateScore).performanceScore ≤ 100) ∧
    ((buildResult []).calculateScore).performanceScore = 100 := by
  have hscore : ∀ issues : List Issue,
      ((buildResult issues).calculateScore).performanceScore =
        if issues.length = 0 then 100
        else max (100 - (totalPenalty issues : Int)) 0 := by
    intro issues
    rw [AnalysisResult.calculateScore]
    by_cases h : issues.length = 0
    · rw [if_pos (by rw [buildResult_total]; exact_mod_cast h), if_pos h]
    · rw [if_neg (by rw [buildResult_total]; exact_mod_cast h), if_neg h,
        buildResult_issues]
  refine ⟨fun issues i => ?_, fun issues => ?_, by rw [hscore]; rfl⟩
  · have happ : (buildResult issues).addIssue i = buildResult (issues ++ [i]) := by
      simp [buildResult, List.foldl_append]
    rw [happ, hscore, hscore]
    have h5 := issuePenalty_ge_five i
    by_cases h : issues.length = 0
    · rw [if_pos h, if_neg (by simp)]
      have : issues = [] := List.length_eq_zero.mp h
      subst this
      have : totalPenalty ([] ++ [i]) = issuePenalty i := by
        simp [totalPenalty]
      rw [this]
      have : (100 - (issuePenalty i : Int)) ≤ 100 := by
        have : (0 : Int) ≤ (issuePenalty i : Int) := Int.ofNat_nonneg _
        omega
      exact max_le (by omega) (by omega)
    · rw [if_neg h, if_neg (by simp)]
      refine max_le_max ?_ le_rfl
      rw [totalPenalty_append]
      have : (0 : Int) ≤ (issuePenalty i : Int) := Int.ofNat_nonneg _
      push_cast
      omega
  · rw [hscore]
    by_cases h : issues.length = 0
    · rw [if_pos h]; omega
    · rw [if_neg h]
      constructor
      · exact le_max_right _ _
      · refine max_le ?_ (by omega)
        have : (0 : Int) ≤ (totalPenalty issues : Int) := Int.ofNat_nonneg _
        omega

/-- C6: one Critical import-cycle finding and nothing else scores exactly
10 — the Critical base penalty 50 scaled by the 1.8 architecture
multiplier gives a penalty of 90. -/
theorem C6_critical_import_cycle_scores_ten :
    applyMultiplier issueImportCycle (basePenalty .critical) = 90 ∧
    ((buildResult
        [(⟨issueImportCycle, .critical, "a/a.go", ""⟩ : Issue)]).calculateScore).performanceScore
      = 10 := by
  refine ⟨by decide, by decide⟩

/-- The §3 data-model invariant: the total counter equals the sum of the
by-severity counts and the length of the finding list. -/
def resultInvariant (r : AnalysisResult) : Prop :=
  r.totalIssues = (r.issuesBySeverity.total : Int) ∧
    r.totalIssues = (r.issues.length : Int)

/-- C7: every result built by adding findings to a fresh result satisfies
the invariant `total == sum(counts-by-severity) == len(findings)`, and
`AddIssue` preserves the invariant on any result already satisfying it. -/
theorem C7_count_invariant :
    (∀ issues : List Issue, resultInvariant (buildResult issues)) ∧
    (∀ (r : AnalysisResult) (i : Issue),
      resultInvariant r → resultInvariant (r.addIssue i)) := by
  constructor
  · intro issues
    obtain ⟨h1, h2, h3⟩ := foldl_addIssue_spec issues newAnalysisResult
    unfold resultInvariant buildResult
    rw [h1, h2, h3]
    simp [newAnalysisResult, CountMap.total]
  · intro r i h
    obtain ⟨h1, h2⟩ := h
    unfold resultInvariant AnalysisResult.addIssue
    rw [CountMap.total_incr]
    constructor
    · push_cast
      omega
    · simp only [List.length_append, List.length_cons, List.length_nil]
      push_cast
      omega

/-- C7 witness: the preservation part applied to the empty result and a
concrete finding. -/
theorem C7_count_invariant_witness :
    resultInvariant newAnalysisResult ∧
    resultInvariant (newAnalysisResult.addIssue
      { type := issueNestedLoops, severity := .medium, file := "a/a.go",
        function := "f" }) :=
  ⟨⟨rfl, rfl⟩,
   C7_count_invariant.2 newAnalysisResult
     { type := issueNestedLoops, severity := .medium, file := "a/a.go",
       function := "f" } ⟨rfl, rfl⟩⟩

/-! ## Analysis context: loop facts
(internal/analyzer/ast_walker.go; the `internal/context` package only
declares the record and enum below, whose shape is fixed by their uses in
ast_walker.go and nested_loops.go) -/

/-- `context.LoopBoundType`. -/
inductive LoopBoundType where
  | boundConstant
  | boundLinear
  | boundVariable
  | boundUnknown
deriving DecidableEq, Repr

/-- `context.LoopInfo` (the `LoopNode` back-pointer is the map key and is
not duplicated here). -/
structure LoopInfo where
  boundType : LoopBoundType
  estimatedMax : Int
  isInnerLoop : Bool
  hasEarlyExit : Bool
deriving DecidableEq, Repr

/-- `Analyzer.extractConstantInt` (ast_walker.go lines 437-457): only the
seven hard-coded integer literal spellings are recognised; every other
literal — and every non-literal — yields -1. -/
def extractConstantInt : Ast → Int
  | .basicLit .int v =>
      if v = "0" then 0
      else if v = "1" then 1
      else if v = "2" then 2
      else if v = "5" then 5
      else if v = "10" then 10
      else if v = "100" then 100
      else if v = "1000" then 1000
      else -1
  | _ => -1

/-- `Analyzer.isConstantExpression`: any `BasicLit`. -/
def isConstantExpression : Ast → Bool
  | .basicLit _ _ => true
  | _ => false

/-- `Analyzer.isLenExpression`: a call whose callee is the identifier
`len`. -/
def isLenExpression : Ast → Bool
  | .callExpr (.ident f) _ => f = "len"
  | _ => false

/-- `Analyzer.analyzeLoopBounds` (ast_walker.go lines 353-369), taking the
`ForStmt`'s condition. -/
def analyzeLoopBounds (cond : Option Ast) : LoopBoundType :=
  match cond with
  | none => .boundUnknown
  | some c =>
      match c with
      | .binaryExpr _ _ y =>
          if isConstantExpression y then .boundConstant
          else if isLenExpression y then .boundLinear
          else .boundVariable
      | _ => .boundVariable

/-- `Analyzer.estimateLoopMax` (ast_walker.go lines 371-384). -/
def estimateLoopMax (cond : Option Ast) : Int :=
  match cond with
  | none => -1
  | some c =>
      match c with
      | .binaryExpr _ _ y =>
          if extractConstantInt y > 0 then extractConstantInt y else -1
      | _ => -1

/-- `context.DataSizeInfo` as used by `estimateRangeMax`: estimated length
per variable name (confidence and source tag are never read by the
modelled code). -/
abbrev DataSizes := List (String × Int)

/-- `Analyzer.estimateRangeMax` (ast_walker.go lines 386-393). -/
def estimateRangeMax (dataSizes : DataSizes) (x : Ast) : Int :=
  match x with
  | .ident name =>
      match dataSizes.lookup name with
      | some len => len
      | none => -1
  | _ => -1

mutual
/-- `Analyzer.hasEarlyExit` (ast_walker.go lines 395-411): a subtree scan
for a `break` branch statement or a `return` statement (the scan does not
prune function literals). -/
def hasEarlyExit : Ast → Bool
  | .file decls => hasEarlyExitList decls
  | .funcDecl _ body =>
      match body with
      | some stmts => hasEarlyExitList stmts
      | none => false
  | .blockStmt stmts => hasEarlyExitList stmts
  | .ifStmt ini cond body els =>
      hasEarlyExitOpt ini || hasEarlyExit cond || hasEarlyExitList body
        || hasEarlyExitOpt els
  | .forStmt _ ini cond post body =>
      hasEarlyExitOpt ini || hasEarlyExitOpt cond || hasEarlyExitOpt post
        || hasEarlyExitList body
  | .rangeStmt _ x body => hasEarlyExit x || hasEarlyExitList body
  | .switchStmt clauses => hasEarlyExitList clauses
  | .typeSwitchStmt clauses => hasEarlyExitList clauses
  | .caseClause _ body => hasEarlyExitList body
  | .commClause body => hasEarlyExitList body
  | .funcLit body => hasEarlyExitList body
  | .binaryExpr _ x y => hasEarlyExit x || hasEarlyExit y
  | .callExpr callee args => hasEarlyExit callee || hasEarlyExitList args
  | .ident _ => false
  | .basicLit _ _ => false
  | .assignStmt lhs rhs => hasEarlyExitList lhs || hasEarlyExitList rhs
  | .branchStmt tok => tok = .brk
  | .returnStmt _ => true
  | .exprStmt x => hasEarlyExit x
  | .arrayType len elt => hasEarlyExitOpt len || hasEarlyExit elt
  | .mapType key val => hasEarlyExit key || hasEarlyExit val
  | .selectorExpr x _ => hasEarlyExit x

/-- `hasEarlyExit` over an optional child. -/
def hasEarlyExitOpt : Option Ast → Bool
  | some a => hasEarlyExit a
  | none => false

/-- `hasEarlyExit` over a child list. -/
def hasEarlyExitList : List Ast → Bool
  | [] => false
  | a :: rest => hasEarlyExit a || hasEarlyExitList rest
end

/-- `context.LoopContext`: keyed by loop node identity, here the loop's
`id`. -/
abbrev LoopContext := List (Nat × LoopInfo)

mutual
/-- `Analyzer.analyzeLoopPatterns` (ast_walker.go lines 260-287): a
pre-order `ast.Inspect` that increments a `loopDepth` counter at each loop
node (the source never decrements it) and records a `LoopInfo` per loop.
Returns the counter value after the subtree together with the recorded
entries. -/
def loopPatterns (dataSizes : DataSizes) (depth : Nat) :
    Ast → Nat × LoopContext
  | .file decls => loopPatternsList dataSizes depth decls
  | .funcDecl _ body =>
      match body with
      | some stmts => loopPatternsList dataSizes depth stmts
      | none => (depth, [])
  | .blockStmt stmts => loopPatternsList dataSizes depth stmts
  | .ifStmt ini cond body els =>
      let (d1, e1) := loopPatternsOpt dataSizes depth ini
      let (d2, e2) := loopPatterns dataSizes d1 cond
      let (d3, e3) := loopPatternsList dataSizes d2 body
      let (d4, e4) := loopPatternsOpt dataSizes d3 els
      (d4, e1 ++ e2 ++ e3 ++ e4)
  | .forStmt id ini cond post body =>
      let d' := depth + 1
      let entry : Nat × LoopInfo :=
        (id, { boundType := analyzeLoopBounds cond
               estimatedMax := estimateLoopMax cond
               isInnerLoop := d' > 1
               hasEarlyExit := hasEarlyExit (.forStmt id ini cond post body) })
      let (d1, e1) := loopPatternsOpt dataSizes d' ini
      let (d2, e2) := loopPatternsOpt dataSizes d1 cond
      let (d3, e3) := loopPatternsOpt dataSizes d2 post
      let (d4, e4) := loopPatternsList dataSizes d3 body
      (d4, entry :: (e1 ++ e2 ++ e3 ++ e4))
  | .rangeStmt id x body =>
      let d' := depth + 1
      let entry : Nat × LoopInfo :=
        (id, { boundType := .boundLinear
               estimatedMax := estimateRangeMax dataSizes x
               isInnerLoop := d' > 1
               hasEarlyExit := hasEarlyExit (.rangeStmt id x body) })
      let (d1, e1) := loopPatterns dataSizes d' x
      let (d2, e2) := loopPatternsList dataSizes d1 body
      (d2, entry :: (e1 ++ e2))
  | .switchStmt clauses => loopPatternsList dataSizes depth clauses
  | .typeSwitchStmt clauses => loopPatternsList dataSizes depth clauses
  | .caseClause _ body => loopPatternsList dataSizes depth body
  | .commClause body => loopPatternsList dataSizes depth body
  | .funcLit body => loopPatternsList dataSizes depth body
  | .binaryExpr _ x y =>
      let (d1, e1) := loopPatterns dataSizes depth x
      let (d2, e2) := loopPatterns dataSizes d1 y
      (d2, e1 ++ e2)
  | .callExpr callee args =>
      let (d1, e1) := loopPatterns dataSizes depth callee
      let (d2, e2) := loopPatternsList dataSizes d1 args
      (d2, e1 ++ e2)
  | .ident _ => (depth, [])
  | .basicLit _ _ => (depth, [])
  | .assignStmt lhs rhs =>
      let (d1, e1) := loopPatternsList dataSizes depth lhs
      let (d2, e2) := loopPatternsList dataSizes d1 rhs
      (d2, e1 ++ e2)
  | .branchStmt _ => (depth, [])
  | .returnStmt results => loopPatternsList dataSizes depth results
  | .exprStmt x => loopPatterns dataSizes depth x
  | .arrayType len elt =>
      let (d1, e1) := loopPatternsOpt dataSizes depth len
      let (d2, e2) := loopPatterns dataSizes d1 elt
      (d2, e1 ++ e2)
  | .mapType key val =>
      let (d1, e1) := loopPatterns dataSizes depth key
      let (d2, e2) := loopPatterns dataSizes d1 val
      (d2, e1 ++ e2)
  | .selectorExpr x _ => loopPatterns dataSizes depth x

/-- `loopPatterns` over an optional child. -/
def loopPatternsOpt (dataSizes : DataSizes) (depth : Nat) :
    Option Ast → Nat × LoopContext
  | some a => loopPatterns dataSizes depth a
  | none => (depth, [])

/-- `loopPatterns` over a child list, threading the depth counter. -/
def loopPatternsList (dataSizes : DataSizes) (depth : Nat) :
    List Ast → Nat × LoopContext
  | [] => (depth, [])
  | a :: rest =>
      let (d1, e1) := loopPatterns dataSizes depth a
      let (d2, e2) := loopPatternsList dataSizes d1 rest
      (d2, e1 ++ e2)
end

/-- Build the loop context of a file (empty `DataSizes` corresponds to a
file in which `analyzeDataSizes` tracked nothing, the common case given the
stubbed variable resolution). -/
def buildLoopContext (dataSizes : DataSizes) (file : Ast) :
    Nat → Option LoopInfo :=
  fun id => ((loopPatterns dataSizes 0 file).2).lookup id

/-! ## Nested-loop detector (internal/analyzer/detectors/nested_loops.go)

Confidence arithmetic note: the source accumulates a float64 confidence
from the constants 0.8, 0.2, 0.3, 0.1, caps it with `min(·, 1.0)` and
gates on `< 0.6`.  Every reachable value is a small multiple of one tenth;
the IEEE-754 accumulation of these constants stays within 1e-15 of the
exact tenths value, and the single reachable sum equal to the 0.6 gate
(0.8 - 0.3 + 0.1, whose double value is 0.6000000000000001, not below the
double nearest 0.6) falls on the same side of the gate as the exact
rational, so the embedding scales all confidences by ten and uses exact
integers, with 6 as the gate. -/

/-- `nestedLoopVisitor.shouldSkipSmallLoop` (nested_loops.go lines
177-191).  The `loopInfo == nil` guard of the source is the `hasInfo`
lookup-miss path, handled at the call site; entries are never inserted
nil. -/
def shouldSkipSmallLoop (loopInfo : LoopInfo) : Bool :=
  if loopInfo.boundType = .boundConstant ∧ loopInfo.estimatedMax > 0 ∧
      loopInfo.estimatedMax ≤ 10 then
    true
  else if loopInfo.hasEarlyExit then true
  else false

/-- `nestedLoopVisitor.calculateConfidence` (nested_loops.go lines
193-214), in tenths: 0.5 without context facts; otherwise 0.8, +0.2 for a
variable bound or estimated max above 100, -0.3 for an early exit, +0.1 at
depth three or more, capped at 1.0. -/
def calculateConfidence (info : Option LoopInfo) (loopDepth : Nat) : Int :=
  match info with
  | none => 5
  | some loopInfo =>
      let c : Int := 8
      let c := if loopInfo.boundType = .boundVariable ∨
          loopInfo.estimatedMax > 100 then c + 2 else c
      let c := if loopInfo.hasEarlyExit then c - 3 else c
      let c := if loopDepth ≥ 3 then c + 1 else c
      min c 10

/-- `nestedLoopVisitor.calculateSeverity` (nested_loops.go lines 116-125):
severity by loop depth. -/
def nestedLoopBaseSeverity (loopDepth : Nat) : Severity :=
  match loopDepth with
  | 2 => .medium
  | 3 => .high
  | _ => .critical

/-- `nestedLoopVisitor.calculateSeverityWithContext` (nested_loops.go lines
216-242), with the source's fall-through between the two adjustment blocks
made explicit. -/
def calculateSeverityWithContext (info : Option LoopInfo) (loopDepth : Nat) :
    Severity :=
  let baseSeverity := nestedLoopBaseSeverity loopDepth
  match info with
  | none => baseSeverity
  | some loopInfo =>
      if loopInfo.boundType = .boundConstant ∧ loopInfo.estimatedMax ≤ 50 ∧
          baseSeverity = .critical then
        .high
      else if loopInfo.boundType = .boundConstant ∧
          loopInfo.estimatedMax ≤ 50 ∧ baseSeverity = .high then
        .medium
      else if loopInfo.estimatedMax > 1000 ∧ baseSeverity = .medium then .high
      else if loopInfo.estimatedMax > 1000 ∧ baseSeverity = .high then .critical
      else baseSeverity

/-- The `maxDepth := 1` fallback / config override of
`nestedLoopVisitor.Visit` (nested_loops.go lines 66-69). -/
def nestedMaxDepth (cfg : Option Config) : Int :=
  match cfg with
  | some c =>
      if c.rules.performance.nestedLoops.enabled then
        c.rules.performance.nestedLoops.maxDepth
      else 1
  | none => 1

/-- `nestedLoopVisitor.detectNestedLoop` (nested_loops.go lines 84-114):
skip when context facts say so, gate on confidence, otherwise report. -/
def detectNestedLoop (ctx : Nat → Option LoopInfo) (id : Nat)
    (loopDepth : Nat) (filename currentFunc : String) : Option Issue :=
  let loopInfo := ctx id
  if (match loopInfo with
      | some info => shouldSkipSmallLoop info
      | none => false) then
    none
  else if calculateConfidence loopInfo loopDepth < 6 then none
  else
    some { type := issueNestedLoops
           severity := calculateSeverityWithContext loopInfo loopDepth
           file := filename
           function := currentFunc }

mutual
/-- `nestedLoopVisitor.Visit` threaded through `ast.Walk` (nested_loops.go
lines 57-82): function declarations update the current function name; a
loop node increments the depth, is checked against the effective maximum
nesting depth, and then only its body statements are walked (the visitor
returns nil after walking them itself); every other node is traversed
transparently.  Returns the current-function name after the subtree (the
source never resets it on exit) together with the issues appended. -/
def nestedWalk (cfg : Option Config) (ctx : Nat → Option LoopInfo)
    (filename : String) (depth : Nat) (currentFunc : String) :
    Ast → String × List Issue
  | .file decls => nestedWalkList cfg ctx filename depth currentFunc decls
  | .funcDecl name body =>
      let cf := match name with
        | some n => n
        | none => currentFunc
      match body with
      | some stmts => nestedWalkList cfg ctx filename depth cf stmts
      | none => (cf, [])
  | .blockStmt stmts => nestedWalkList cfg ctx filename depth currentFunc stmts
  | .ifStmt ini cond body els =>
      let (c1, i1) := nestedWalkOpt cfg ctx filename depth currentFunc ini
      let (c2, i2) := nestedWalk cfg ctx filename depth c1 cond
      let (c3, i3) := nestedWalkList cfg ctx filename depth c2 body
      let (c4, i4) := nestedWalkOpt cfg ctx filename depth c3 els
      (c4, i1 ++ i2 ++ i3 ++ i4)
  | .forStmt id _ _ _ body =>
      let d' := depth + 1
      let here := if (d' : Int) > nestedMaxDepth cfg then
          (detectNestedLoop ctx id d' filename currentFunc).toList
        else []
      let (c1, i1) := nestedWalkList cfg ctx filename d' currentFunc body
      (c1, here ++ i1)
  | .rangeStmt id _ body =>
      let d' := depth + 1
      let here := if (d' : Int) > nestedMaxDepth cfg then
          (detectNestedLoop ctx id d' filename currentFunc).toList
        else []
      let (c1, i1) := nestedWalkList cfg ctx filename d' currentFunc body
      (c1, here ++ i1)
  | .switchStmt clauses => nestedWalkList cfg ctx filename depth currentFunc clauses
  | .typeSwitchStmt clauses =>
      nestedWalkList cfg ctx filename depth currentFunc clauses
  | .caseClause _ body => nestedWalkList cfg ctx filename depth currentFunc body
  | .commClause body => nestedWalkList cfg ctx filename depth currentFunc body
  | .funcLit body => nestedWalkList cfg ctx filename depth currentFunc body
  | .binaryExpr _ x y =>
      let (c1, i1) := nestedWalk cfg ctx filename depth currentFunc x
      let (c2, i2) := nestedWalk cfg ctx filename depth c1 y
      (c2, i1 ++ i2)
  | .callExpr callee args =>
      let (c1, i1) := nestedWalk cfg ctx filename depth currentFunc callee
      let (c2, i2) := nestedWalkList cfg ctx filename depth c1 args
      (c2, i1 ++ i2)
  | .ident _ => (currentFunc, [])
  | .basicLit _ _ => (currentFunc, [])
  | .assignStmt lhs rhs =>
      let (c1, i1) := nestedWalkList cfg ctx filename depth currentFunc lhs
      let (c2, i2) := nestedWalkList cfg ctx filename depth c1 rhs
      (c2, i1 ++ i2)
  | .branchStmt _ => (currentFunc, [])
  | .returnStmt results =>
      nestedWalkList cfg ctx filename depth currentFunc results
  | .exprStmt x => nestedWalk cfg ctx filename depth currentFunc x
  | .arrayType len elt =>
      let (c1, i1) := nestedWalkOpt cfg ctx filename depth currentFunc len
      let (c2, i2) := nestedWalk cfg ctx filename depth c1 elt
      (c2, i1 ++ i2)
  | .mapType key val =>
      let (c1, i1) := nestedWalk cfg ctx filename depth currentFunc key
      let (c2, i2) := nestedWalk cfg ctx filename depth c1 val
      (c2, i1 ++ i2)
  | .selectorExpr x _ => nestedWalk cfg ctx filename depth currentFunc x

/-- `nestedWalk` over an optional child. -/
def nestedWalkOpt (cfg : Option Config) (ctx : Nat → Option LoopInfo)
    (filename : String) (depth : Nat) (currentFunc : String) :
    Option Ast → String × List Issue
  | some a => nestedWalk cfg ctx filename depth currentFunc a
  | none => (currentFunc, [])

/-- `nestedWalk` over a child list, threading the current-function name. -/
def nestedWalkList (cfg : Option Config) (ctx : Nat → Option LoopInfo)
    (filename : String) (depth : Nat) (currentFunc : String) :
    List Ast → String × List Issue
  | [] => (currentFunc, [])
  | a :: rest =>
      let (c1, i1) := nestedWalk cfg ctx filename depth currentFunc a
      let (c2, i2) := nestedWalkList cfg ctx filename depth c1 rest
      (c2, i1 ++ i2)
end

/-- `NestedLoopDetector.Detect` (nested_loops.go lines 35-45): fresh
visitor state, walk, return the collected issues. -/
def nestedLoopDetect (cfg : Option Config) (ctx : Nat → Option LoopInfo)
    (filename : String) (file : Ast) : List Issue :=
  (nestedWalk cfg ctx filename 0 "" file).2

/-- A counted-loop continuation condition `i < n` comparing against a plain
variable: classified as a variable bound with unknown estimated max. -/
def variableBoundCond : Option Ast :=
  some (.binaryExpr .lss (.ident "i") (.ident "n"))

/-- A triple-nested counted loop over a variable bound with no early exit,
inside one function. -/
def tripleLoopFile : Ast :=
  .file [.funcDecl (some "processItems") (some [
    .forStmt 1 none variableBoundCond none [
      .forStmt 2 none variableBoundCond none [
        .forStmt 3 none variableBoundCond none []]]])]

/-- The analysis context the context builder derives for
`tripleLoopFile`. -/
def tripleLoopCtx : Nat → Option LoopInfo :=
  buildLoopContext [] tripleLoopFile

/-- C1 counterexample: under `DefaultConfig()` the nested-loops
`MaxDepth` is 2, so for the triple-nested variable-bound loop only the
depth-3 loop passes the `loopDepth > maxDepth` gate; the detector produces
exactly one finding (High), not the two the claim states. -/
theorem C1_counterexample :
    nestedLoopDetect (some defaultConfig) tripleLoopCtx "main.go"
        tripleLoopFile =
      [⟨issueNestedLoops, .high, "main.go", "processItems"⟩] ∧
    (nestedLoopDetect (some defaultConfig) tripleLoopCtx "main.go"
        tripleLoopFile).length ≠ 2 := by
  refine ⟨rfl, ?_⟩
  rw [show nestedLoopDetect (some defaultConfig) tripleLoopCtx "main.go"
      tripleLoopFile =
    [⟨issueNestedLoops, .high, "main.go", "processItems"⟩] from rfl]
  decide

/-- C1 (amended): under the default configuration the maximum nesting
depth is 2 and the triple-nested variable-bound loop with no early exit
yields exactly one nested-iteration finding, High (at depth 3); with a nil
detector configuration the fallback maximum nesting depth is 1 — every
loop at depth 2 or greater is evaluated — and the same program yields
exactly two findings, Medium at depth 2 then High at depth 3; in both
cases every evaluated loop's confidence is at least 0.6 (here 1.0, i.e.
10 tenths). -/
theorem C1_triple_loop_findings :
    nestedMaxDepth (some defaultConfig) = 2 ∧
    nestedLoopDetect (some defaultConfig) tripleLoopCtx "main.go"
        tripleLoopFile =
      [⟨issueNestedLoops, .high, "main.go", "processItems"⟩] ∧
    nestedMaxDepth none = 1 ∧
    nestedLoopDetect none tripleLoopCtx "main.go" tripleLoopFile =
      [⟨issueNestedLoops, .medium, "main.go", "processItems"⟩,
       ⟨issueNestedLoops, .high, "main.go", "processItems"⟩] ∧
    calculateConfidence (tripleLoopCtx 2) 2 = 10 ∧
    calculateConfidence (tripleLoopCtx 3) 3 = 10 := by
  exact ⟨rfl, rfl, rfl, rfl, rfl, rfl⟩

/-- A counted-loop continuation condition `i < 3`: the literal is not one
of the seven spellings `extractConstantInt` recognises. -/
def literal3Cond : Option Ast :=
  some (.binaryExpr .lss (.ident "i") (.basicLit .int "3"))

/-- A double-nested counted loop bounded by the literal 3, no early
exit. -/
def literal3File : Ast :=
  .file [.funcDecl (some "f") (some [
    .forStmt 1 none literal3Cond none [
      .forStmt 2 none literal3Cond none []]])]

/-- The analysis context for `literal3File`. -/
def literal3Ctx : Nat → Option LoopInfo :=
  buildLoopContext [] literal3File

/-- C10: a counted loop comparing against an integer literal outside
`{0, 1, 2, 5, 10, 100, 1000}` is classified as a constant bound whose
estimated max is -1, so the small-constant-loop suppression (constant
bound with positive estimated max at most 10) never fires for it; in
particular the nested loop bounded by the literal 3 still produces a
nested-iteration finding. -/
theorem C10_unrecognized_literal (s : String)
    (hs : s ∉ (["0", "1", "2", "5", "10", "100", "1000"] : List String))
    (op : BinOp) (x : Ast) :
    analyzeLoopBounds (some (.binaryExpr op x (.basicLit .int s))) =
        .boundConstant ∧
    estimateLoopMax (some (.binaryExpr op x (.basicLit .int s))) = -1 ∧
    (∀ inner : Bool,
      shouldSkipSmallLoop
        { boundType := .boundConstant, estimatedMax := -1,
          isInnerLoop := inner, hasEarlyExit := false } = false) ∧
    nestedLoopDetect none literal3Ctx "main.go" literal3File =
      [⟨issueNestedLoops, .medium, "main.go", "f"⟩] := by
  simp only [List.mem_cons, List.not_mem_nil, or_false, not_or] at hs
  obtain ⟨h0, h1, h2, h5, h10, h100, h1000⟩ := hs
  refine ⟨rfl, ?_, fun inner => rfl, rfl⟩
  simp [estimateLoopMax, extractConstantInt, h0, h1, h2, h5, h10, h100, h1000]

/-- C10 witness: the theorem applied to the literal spelling "3". -/
theorem C10_unrecognized_literal_witness :
    ("3" ∉ (["0", "1", "2", "5", "10", "100", "1000"] : List String)) ∧
    (analyzeLoopBounds
          (some (.binaryExpr .lss (.ident "i") (.basicLit .int "3"))) =
        .boundConstant ∧
      estimateLoopMax
          (some (.binaryExpr .lss (.ident "i") (.basicLit .int "3"))) = -1 ∧
      (∀ inner : Bool,
        shouldSkipSmallLoop
          { boundType := .boundConstant, estimatedMax := -1,
            isInnerLoop := inner, hasEarlyExit := false } = false) ∧
      nestedLoopDetect none literal3Ctx "main.go" literal3File =
        [⟨issueNestedLoops, .medium, "main.go", "f"⟩]) :=
  ⟨by decide, C10_unrecognized_literal "3" (by decide) .lss (.ident "i")⟩

/-! ## Memory-allocation detector
(internal/analyzer/detectors/memory_alloc.go) -/

mutual
/-- `memoryAllocVisitor.getTypeString` (memory_alloc.go lines 219-236). -/
def getTypeString : Ast → String
  | .arrayType none elt => "[]" ++ getTypeString elt
  | .arrayType (some l) elt => "[" ++ getExprString l ++ "]" ++ getTypeString elt
  | .mapType key val => "map[" ++ getTypeString key ++ "]" ++ getTypeString val
  | .ident n => n
  | .selectorExpr x sel => getExprString x ++ "." ++ sel
  | _ => "unknown"

/-- `memoryAllocVisitor.getExprString` (memory_alloc.go lines 238-249). -/
def getExprString : Ast → String
  | .ident n => n
  | .basicLit _ v => v
  | .selectorExpr x sel => getExprString x ++ "." ++ sel
  | _ => "expr"
end

/-- `strings.HasPrefix`, computed over the character list (the
string-level `String.isPrefixOf` of the Lean core library does not reduce
inside the kernel). -/
def strHasPfx (p s : String) : Bool :=
  p.toList.isPrefixOf s.toList

/-- `memoryAllocVisitor.isSliceType`: type string begins with `[]`. -/
def isSliceType (expr : Ast) : Bool :=
  strHasPfx "[]" (getTypeString expr)

/-- `memoryAllocVisitor.isMapType`: type string begins with `map[`. -/
def isMapType (expr : Ast) : Bool :=
  strHasPfx "map[" (getTypeString expr)

/-- `memoryAllocVisitor.isAllocationCall`: a call to `make` or `new`. -/
def isAllocationCall : Ast → Bool
  | .callExpr (.ident f) _ => f = "make" ∨ f = "new"
  | _ => false

/-- `memoryAllocVisitor.isMakeSliceWithoutCapacity` (memory_alloc.go lines
178-189): a `make` of a slice type with a length argument but no capacity
argument (exactly two arguments). -/
def isMakeSliceWithoutCapacity : Ast → Bool
  | .callExpr (.ident f) (t :: rest) =>
      if f = "make" ∧ (t :: rest).length ≥ 2 ∧ isSliceType t = true then
        (t :: rest).length = 2
      else false
  | _ => false

/-- `memoryAllocVisitor.isMakeMapWithoutSize` (memory_alloc.go lines
191-198). -/
def isMakeMapWithoutSize : Ast → Bool
  | .callExpr (.ident f) (t :: rest) =>
      f = "make" ∧ (t :: rest).length = 1 ∧ isMapType t = true
  | _ => false

/-- `memoryAllocVisitor.isAppendCall`. -/
def isAppendCall : Ast → Bool
  | .callExpr (.ident f) _ => f = "append"
  | _ => false

/-- `detectInLoops := true` default / config override (memory_alloc.go
lines 93-96). -/
def memDetectInLoops (cfg : Option Config) : Bool :=
  match cfg with
  | some c =>
      if c.rules.memory.allocation.enabled then
        c.rules.memory.allocation.detectInLoops
      else true
  | none => true

/-- `requireCapacityHints := true` default / config override
(memory_alloc.go lines 110-113). -/
def memRequireCapacityHints (cfg : Option Config) : Bool :=
  match cfg with
  | some c =>
      if c.rules.memory.allocation.enabled then
        c.rules.memory.allocation.requireCapacityHints
      else true
  | none => true

/-- `minLoopIterations := 5` default / config override (memory_alloc.go
lines 135-138). -/
def memMinLoopIterations (cfg : Option Config) : Int :=
  match cfg with
  | some c =>
      if c.rules.memory.allocation.enabled then
        c.rules.memory.allocation.minLoopIterations
      else 5
  | none => 5

/-- `memoryAllocVisitor.checkAllocationInLoop` (memory_alloc.go lines
92-107): any `make`/`new` call while inside a loop is a High finding. -/
def checkAllocationInLoop (cfg : Option Config)
    (filename currentFunc : String) (call : Ast) : List Issue :=
  if memDetectInLoops cfg = false then []
  else if isAllocationCall call then
    [⟨issueMemoryAlloc, .high, filename, currentFunc⟩]
  else []

/-- `memoryAllocVisitor.checkInefficientAllocation` (memory_alloc.go lines
109-132): slice `make` without capacity is Medium, map `make` without size
is Low. -/
def checkInefficientAllocation (cfg : Option Config)
    (filename currentFunc : String) (call : Ast) : List Issue :=
  if memRequireCapacityHints cfg = false then []
  else
    (if isMakeSliceWithoutCapacity call then
      [⟨issueMemoryAlloc, .medium, filename, currentFunc⟩]
    else []) ++
    (if isMakeMapWithoutSize call then
      [⟨issueMemoryAlloc, .low, filename, currentFunc⟩]
    else [])

/-- `memoryAllocVisitor.checkAppendWithoutPrealloc` (memory_alloc.go lines
134-154). -/
def checkAppendWithoutPrealloc (cfg : Option Config)
    (filename currentFunc : String) (loopDepth : Nat) (rhs : List Ast) :
    List Issue :=
  if (loopDepth : Int) < memMinLoopIterations cfg then []
  else
    match rhs with
    | [call] =>
        if isAppendCall call ∧ loopDepth > 0 then
          [⟨issueMemoryAlloc, .medium, filename, currentFunc⟩]
        else []
    | _ => []

/-- The `*ast.CallExpr` arm of `memoryAllocVisitor.Visit` (memory_alloc.go
lines 76-81): the loop-allocation check when inside a loop, then the
capacity-hint checks unconditionally. -/
def memVisitCall (cfg : Option Config) (inLoop : Bool)
    (filename currentFunc : String) (call : Ast) : List Issue :=
  (if inLoop then checkAllocationInLoop cfg filename currentFunc call
   else []) ++
    checkInefficientAllocation cfg filename currentFunc call

mutual
/-- `memoryAllocVisitor.Visit` threaded through `ast.Walk` (memory_alloc.go
lines 57-90): loops bump the depth, set `inLoop`, and walk only their body
statements; call expressions run the allocation checks and are then
traversed further; assignments run the append check when inside a loop.
Returns the current-function name after the subtree and the issues
appended. -/
def memWalk (cfg : Option Config) (filename : String) (depth : Nat)
    (inLoop : Bool) (currentFunc : String) : Ast → String × List Issue
  | .file decls => memWalkList cfg filename depth inLoop currentFunc decls
  | .funcDecl name body =>
      let cf := match name with
        | some n => n
        | none => currentFunc
      match body with
      | some stmts => memWalkList cfg filename depth inLoop cf stmts
      | none => (cf, [])
  | .blockStmt stmts => memWalkList cfg filename depth inLoop currentFunc stmts
  | .ifStmt ini cond body els =>
      let (c1, i1) := memWalkOpt cfg filename depth inLoop currentFunc ini
      let (c2, i2) := memWalk cfg filename depth inLoop c1 cond
      let (c3, i3) := memWalkList cfg filename depth inLoop c2 body
      let (c4, i4) := memWalkOpt cfg filename depth inLoop c3 els
      (c4, i1 ++ i2 ++ i3 ++ i4)
  | .forStmt _ _ _ _ body =>
      memWalkList cfg filename (depth + 1) true currentFunc body
  | .rangeStmt _ _ body =>
      memWalkList cfg filename (depth + 1) true currentFunc body
  | .switchStmt clauses =>
      memWalkList cfg filename depth inLoop currentFunc clauses
  | .typeSwitchStmt clauses =>
      memWalkList cfg filename depth inLoop currentFunc clauses
  | .caseClause _ body => memWalkList cfg filename depth inLoop currentFunc body
  | .commClause body => memWalkList cfg filename depth inLoop currentFunc body
  | .funcLit body => memWalkList cfg filename depth inLoop currentFunc body
  | .binaryExpr _ x y =>
      let (c1, i1) := memWalk cfg filename depth inLoop currentFunc x
      let (c2, i2) := memWalk cfg filename depth inLoop c1 y
      (c2, i1 ++ i2)
  | .callExpr callee args =>
      let here := memVisitCall cfg inLoop filename currentFunc
        (.callExpr callee args)
      let (c1, i1) := memWalk cfg filename depth inLoop currentFunc callee
      let (c2, i2) := memWalkList cfg filename depth inLoop c1 args
      (c2, here ++ i1 ++ i2)
  | .ident _ => (currentFunc, [])
  | .basicLit _ _ => (currentFunc, [])
  | .assignStmt lhs rhs =>
      let here := if inLoop then
          checkAppendWithoutPrealloc cfg filename currentFunc depth rhs
        else []
      let (c1, i1) := memWalkList cfg filename depth inLoop currentFunc lhs
      let (c2, i2) := memWalkList cfg filename depth inLoop c1 rhs
      (c2, here ++ i1 ++ i2)
  | .branchStmt _ => (currentFunc, [])
  | .returnStmt results =>
      memWalkList cfg filename depth inLoop currentFunc results
  | .exprStmt x => memWalk cfg filename depth inLoop currentFunc x
  | .arrayType len elt =>
      let (c1, i1) := memWalkOpt cfg filename depth inLoop currentFunc len
      let (c2, i2) := memWalk cfg filename depth inLoop c1 elt
      (c2, i1 ++ i2)
  | .mapType key val =>
      let (c1, i1) := memWalk cfg filename depth inLoop currentFunc key
      let (c2, i2) := memWalk cfg filename depth inLoop c1 val
      (c2, i1 ++ i2)
  | .selectorExpr x _ => memWalk cfg filename depth inLoop currentFunc x

/-- `memWalk` over an optional child. -/
def memWalkOpt (cfg : Option Config) (filename : String) (depth : Nat)
    (inLoop : Bool) (currentFunc : String) : Option Ast → String × List Issue
  | some a => memWalk cfg filename depth inLoop currentFunc a
  | none => (currentFunc, [])

/-- `memWalk` over a child list. -/
def memWalkList (cfg : Option Config) (filename : String) (depth : Nat)
    (inLoop : Bool) (currentFunc : String) : List Ast → String × List Issue
  | [] => (currentFunc, [])
  | a :: rest =>
      let (c1, i1) := memWalk cfg filename depth inLoop currentFunc a
      let (c2, i2) := memWalkList cfg filename depth inLoop c1 rest
      (c2, i1 ++ i2)
end

/-- `MemoryAllocDetector.Detect` (memory_alloc.go lines 34-45): fresh
visitor state, walk, return the collected issues. -/
def memoryAllocDetect (cfg : Option Config) (filename : String)
    (file : Ast) : List Issue :=
  (memWalk cfg filename 0 false "" file).2

/-- A loop whose body assigns the result of a two-argument slice `make` —
a slice allocation with a length but no capacity hint, inside a loop. -/
def makeSliceLoopFile : Ast :=
  .file [.funcDecl (some "f") (some [
    .forStmt 1 none variableBoundCond none [
      .assignStmt [.ident "buf"]
        [.callExpr (.ident "make") [.arrayType none (.ident "int"), .ident "n"]]]])]

/-- C9: a three-argument slice `make` (explicit capacity) never yields the
missing-capacity finding — `checkInefficientAllocation` yields nothing at
all for it, in or out of a loop, under any configuration; a two-argument
slice `make` seen inside a loop yields both the High allocation-in-loop
finding and the Medium missing-capacity finding; concretely, the detector
reports exactly those two findings for one `make`-assignment statement in
a loop under the default configuration. -/
theorem C9_capacity_findings :
    (∀ (cfg : Option Config) (filename currentFunc : String) (inLoop : Bool)
        (callee a1 a2 a3 : Ast),
      isMakeSliceWithoutCapacity (.callExpr callee [a1, a2, a3]) = false ∧
      checkInefficientAllocation cfg filename currentFunc
          (.callExpr callee [a1, a2, a3]) = [] ∧
      memVisitCall cfg inLoop filename currentFunc
          (.callExpr callee [a1, a2, a3]) =
        (if inLoop then
          checkAllocationInLoop cfg filename currentFunc
            (.callExpr callee [a1, a2, a3])
        else [])) ∧
    (∀ (cfg : Option Config) (filename currentFunc : String) (t len : Ast),
      isSliceType t = true → memDetectInLoops cfg = true →
      memRequireCapacityHints cfg = true →
      memVisitCall cfg true filename currentFunc
          (.callExpr (.ident "make") [t, len]) =
        [⟨issueMemoryAlloc, .high, filename, currentFunc⟩,
         ⟨issueMemoryAlloc, .medium, filename, currentFunc⟩]) ∧
    memoryAllocDetect (some defaultConfig) "main.go" makeSliceLoopFile =
      [⟨issueMemoryAlloc, .high, "main.go", "f"⟩,
       ⟨issueMemoryAlloc, .medium, "main.go", "f"⟩] := by
  refine ⟨fun cfg filename currentFunc inLoop callee a1 a2 a3 => ?_, ?_, rfl⟩
  · have hslice : isMakeSliceWithoutCapacity (.callExpr callee [a1, a2, a3]) =
        false := by
      cases callee <;> simp [isMakeSliceWithoutCapacity]
    have hmap : isMakeMapWithoutSize (.callExpr callee [a1, a2, a3]) =
        false := by
      cases callee <;> simp [isMakeMapWithoutSize]
    have hineff : checkInefficientAllocation cfg filename currentFunc
        (.callExpr callee [a1, a2, a3]) = [] := by
      unfold checkInefficientAllocation
      rw [hslice, hmap]
      simp
    refine ⟨hslice, hineff, ?_⟩
    unfold memVisitCall
    rw [hineff]
    simp
  · intro cfg filename currentFunc t len hSlice hDet hCap
    unfold memVisitCall checkAllocationInLoop checkInefficientAllocation
    rw [hDet, hCap]
    simp [isAllocationCall, isMakeSliceWithoutCapacity, isMakeMapWithoutSize,
      hSlice]

/-- C9 witness: the two-argument branch of the theorem applied to
`make([]int, n)` under the default configuration. -/
theorem C9_capacity_findings_witness :
    isSliceType (.arrayType none (.ident "int")) = true ∧
    memDetectInLoops (some defaultConfig) = true ∧
    memRequireCapacityHints (some defaultConfig) = true ∧
    memVisitCall (some defaultConfig) true "main.go" "f"
        (.callExpr (.ident "make")
          [.arrayType none (.ident "int"), .ident "n"]) =
      [⟨issueMemoryAlloc, .high, "main.go", "f"⟩,
       ⟨issueMemoryAlloc, .medium, "main.go", "f"⟩] :=
  ⟨by decide, rfl, rfl,
   C9_capacity_findings.2.1 (some defaultConfig) "main.go" "f"
     (.arrayType none (.ident "int")) (.ident "n") (by decide) rfl rfl⟩

/-! ## Import-cycle detector (the second document of src/unnamed/part_004)

The import-cycle visitor dispatches only on `*ast.File` (package name) and
`*ast.GenDecl` of kind IMPORT (import specs); every other node is
traversed transparently and contributes nothing.  A file is therefore
embedded as exactly those observations (`GoFile` below).  Go maps are
embedded as insertion-ordered association lists; where the source ranges
over a map (`findCycles`), the iteration order — unspecified in Go — is an
explicit argument, and the per-run entry point passes insertion order. -/

/-- Substring containment, `strings.Contains`: some suffix of `s` starts
with `sub`. -/
def charsContain (s sub : List Char) : Bool :=
  sub.isPrefixOf s ||
    (match s with
     | [] => false
     | _ :: rest => charsContain rest sub)

/-- `strings.Contains` over the character lists. -/
def strContains (s sub : String) : Bool :=
  charsContain s.toList sub.toList

/-- ``strings.Trim(v, `"`)``: drop every leading and trailing double-quote
character. -/
def trimQuotes (s : String) : String :=
  String.mk (((s.toList.dropWhile (· = '"')).reverse.dropWhile (· = '"')).reverse)

/-- `path.Dir` for the relative slash-separated paths the detector sees
(no leading slash, no dot segments): everything before the final `/`, or
`.` when there is no slash.  (Go's `path.Dir` additionally runs `Clean`;
on these inputs `Clean` is the identity.) -/
def pathDir (p : String) : String :=
  match (p.toList.reverse).dropWhile (fun c => c ≠ '/') with
  | [] => "."
  | _ :: rest => String.mk rest.reverse

/-- `importCycleVisitor.getPackagePathFromFile` (part_004 lines 324-332). -/
def getPackagePathFromFile (filename : String) : String :=
  let dir := pathDir filename
  if dir = "." then "main" else dir

/-- Strip every leading `./` segment — `path.Clean` restricted to the
relative import-path shapes the detector normalises (`./x`, `././x`;
`../x` is already clean). -/
def dropDotSlashPfx : List Char → List Char
  | '.' :: '/' :: rest => dropDotSlashPfx rest
  | cs => cs

/-- `ImportCycleDetector.normalizeImportPath` (part_004 lines 383-389). -/
def normalizeImportPath (p : String) : String :=
  if strHasPfx "./" p || strHasPfx "../" p then
    String.mk (dropDotSlashPfx p.toList)
  else p

/-- The standard-library prefix list of `isThirdPartyOrLocalImport`
(part_004 lines 305-313). -/
def stdLibPfxs : List String :=
  ["fmt", "os", "io", "net", "http", "time", "strings", "strconv",
   "context", "sync", "encoding", "crypto", "database", "archive",
   "bufio", "bytes", "compress", "container", "debug", "embed",
   "errors", "expvar", "flag", "go", "hash", "html", "image",
   "index", "log", "math", "mime", "path", "plugin", "reflect",
   "regexp", "runtime", "sort", "syscall", "testing", "text",
   "unicode", "unsafe"]

/-- `importCycleVisitor.isThirdPartyOrLocalImport` (part_004 lines
290-322): configured exclusions and vendor paths are dropped, standard
library prefixes are dropped, and what remains is kept only if it contains
a dot or is explicitly relative. -/
def isThirdPartyOrLocalImport (cfg : Option Config) (importPath : String) :
    Bool :=
  let blockedByConfig : Bool :=
    match cfg with
    | some c =>
        if c.rules.quality.importCycles.enabled then
          (c.rules.quality.importCycles.excludePackages.any fun ex =>
            importPath = ex || strHasPfx (ex ++ "/") importPath) ||
          (c.rules.quality.importCycles.ignoreVendor &&
            (strHasPfx "vendor/" importPath ||
              strContains importPath "/vendor/"))
        else false
    | none => false
  if blockedByConfig then false
  else if stdLibPfxs.any (fun p =>
      importPath = p || strHasPfx (p ++ "/") importPath) then false
  else
    strContains importPath "." || strHasPfx "./" importPath ||
      strHasPfx "../" importPath

/-- `detectors.packageInfo` (part_004 lines 199-204).  The `line` field
feeds only ``Issue.Line`, which the embedding does not carry, so it is
omitted; `name` and `filePath` are recorded but never read back by the
algorithm. -/
structure PackageInfo where
  name : String
  filePath : String
  imports : List String
deriving DecidableEq, Repr

/-- `ImportCycleDetector.packages`: a Go `map[string]*packageInfo` as an
insertion-ordered association list. -/
abbrev Packages := List (String × PackageInfo)

/-- Assignment into the package map: overwrite in place or append. -/
def pkgInsert : Packages → String → PackageInfo → Packages
  | [], k, v => [(k, v)]
  | (k', v') :: rest, k, v =>
      if k' = k then (k', v) :: rest else (k', v') :: pkgInsert rest k v

/-- `importCycleVisitor.processImports` (part_004 lines 254-288) for a
single import declaration: trim and filter the spec paths; when any
survive, record them against the file's package path (overwriting any
previous record for that key). -/
def processImports (cfg : Option Config) (filename packageName : String)
    (specs : List String) (pkgs : Packages) : Packages :=
  let imports := (specs.map trimQuotes).filter
    (fun p => isThirdPartyOrLocalImport cfg p)
  if imports.length > 0 then
    pkgInsert pkgs (getPackagePathFromFile filename)
      { name := packageName, filePath := filename, imports := imports }
  else pkgs

/-- Setting a key true in a Go `map[string]bool` used as a set: membership
is the read, insertion is idempotent. -/
def setFlag (m : List String) (k : String) : List String :=
  if k ∈ m then m else m ++ [k]

/-- `ImportCycleDetector.extractCycle` (part_004 lines 391-402): the
suffix of the path from the first occurrence of `cycleStart`, with
`cycleStart` appended to close the cycle; the whole path if it does not
occur. -/
def extractCycleAux : List String → String → Option (List String)
  | [], _ => none
  | p :: rest, cycleStart =>
      if p = cycleStart then some ((p :: rest) ++ [cycleStart])
      else extractCycleAux rest cycleStart

def extractCycle (path : List String) (cycleStart : String) : List String :=
  (extractCycleAux path cycleStart).getD path

mutual
/-- `ImportCycleDetector.dfs` (part_004 lines 351-381): three-colour DFS —
`visited` and `recStack` are the shared mutable maps, `path` the call-local
slice.  Returns the first cycle found (if any) together with the updated
`visited` and `recStack`.  The `fuel` argument only bounds the recursion
for Lean's benefit: every nested `dfs` call is on a node not yet visited,
so the recursion depth never exceeds the number of distinct names
reachable, and `dfsFuel` below over-approximates that; fuel exhaustion is
unreachable for the fuel the callers pass. -/
def dfs (pkgs : Packages) : Nat → String → List String → List String →
    List String → Option (List String) × List String × List String
  | 0, _, visited, recStack, _ => (none, visited, recStack)
  | fuel + 1, packagePath, visited, recStack, path =>
      let visited := setFlag visited packagePath
      let recStack := setFlag recStack packagePath
      let path := path ++ [packagePath]
      match pkgs.lookup packagePath with
      | none => (none, visited, recStack.erase packagePath)
      | some pkg =>
          match dfsImports pkgs fuel pkg.imports visited recStack path with
          | (some cycle, v', r') => (some cycle, v', r'.erase packagePath)
          | (none, v', r') => (none, v', r'.erase packagePath)

/-- The `for _, importPath := range pkg.imports` loop body of `dfs`:
recurse into unvisited targets, report a back-edge when the target is on
the recursion stack, and stop at the first cycle. -/
def dfsImports (pkgs : Packages) : Nat → List String → List String →
    List String → List String →
    Option (List String) × List String × List String
  | 0, _, visited, recStack, _ => (none, visited, recStack)
  | fuel + 1, imports, visited, recStack, path =>
      match imports with
      | [] => (none, visited, recStack)
      | importPath :: rest =>
          let normalizedPath := normalizeImportPath importPath
          if normalizedPath ∈ visited then
            if normalizedPath ∈ recStack then
              (some (extractCycle path normalizedPath), visited, recStack)
            else dfsImports pkgs fuel rest visited recStack path
          else
            match dfs pkgs fuel normalizedPath visited recStack path with
            | (some cycle, v', r') => (some cycle, v', r')
            | (none, v', r') => dfsImports pkgs fuel rest v' r' path
end

/-- Fuel that over-approximates the DFS stack depth: twice the number of
package records plus all their import edges, plus slack. -/
def dfsFuel (pkgs : Packages) : Nat :=
  2 * pkgs.foldl (fun acc e => acc + 1 + e.2.imports.length) 0 + 2

/-- `ImportCycleDetector.findCycles` (part_004 lines 334-349): one DFS per
not-yet-visited package, sharing `visited`/`recStack` across the loop and
starting each top-level call with an empty path; `order` is the map
iteration order (see the section header). -/
def findCyclesAux (pkgs : Packages) :
    List String → List String → List String → List (List String)
  | [], _, _ => []
  | p :: restOrder, visited, recStack =>
      if p ∈ visited then findCyclesAux pkgs restOrder visited recStack
      else
        match dfs pkgs (dfsFuel pkgs) p visited recStack [] with
        | (some cycle, v', r') => cycle :: findCyclesAux pkgs restOrder v' r'
        | (none, v', r') => findCyclesAux pkgs restOrder v' r'

def findCycles (pkgs : Packages) (order : List String) : List (List String) :=
  findCyclesAux pkgs order [] []

/-- The `maxCycleLength := 5` default / config override of
`calculateCycleSeverity` (part_004 lines 472-475). -/
def cycleMaxLength (cfg : Option Config) : Int :=
  match cfg with
  | some c =>
      if c.rules.quality.importCycles.enabled then
        c.rules.quality.importCycles.maxCycleLength
      else 5
  | none => 5

/-- `importCycleVisitor.calculateCycleSeverity` (part_004 lines 471-489).
The source computes `ratio := float64(cycleLength) / float64(maxLen)` and
compares it against 1.5, 1.2 and 1.0.  For a positive maximum the
comparisons are encoded exactly over the integers (`ratio ≥ 3/2` iff
`2·len ≥ 3·max`, and so on); this agrees with the IEEE-754 double
comparison for every maximum below 2^51, since the nearest double to 1.2
differs from 6/5 by under 5e-17 while distinct ratios with denominator
`max` differ from 6/5 by at least `1/(5·max)`.  A zero maximum makes the
ratio ±Inf (Critical for a positive length, otherwise NaN, failing every
comparison), and a negative maximum makes it non-positive, failing every
comparison. -/
def calculateCycleSeverity (cfg : Option Config) (cycleLength : Nat) :
    Severity :=
  let maxLen := cycleMaxLength cfg
  if maxLen > 0 then
    if 2 * (cycleLength : Int) ≥ 3 * maxLen then .critical
    else if 5 * (cycleLength : Int) ≥ 6 * maxLen then .high
    else if (cycleLength : Int) ≥ maxLen then .medium
    else .low
  else if maxLen = 0 then
    if cycleLength > 0 then .critical else .low
  else .low

/-- `importCycleVisitor.createCycleIssue` (part_004 lines 404-469): drop
degenerate cycles; under an enabled configuration drop cycles whose edge
count is within the maximum and, when configured, cycles touching
test-looking packages; report only when the current file's package is a
cycle member.  Note the severity is computed from `len(cycle)` — the edge
count plus one, since the path list carries the start twice. -/
def createCycleIssue (cfg : Option Config) (filename : String)
    (cycle : List String) : Option Issue :=
  if cycle.length < 2 then none
  else
    let blockedByConfig : Bool :=
      match cfg with
      | some c =>
          if c.rules.quality.importCycles.enabled then
            if ((cycle.length : Int) - 1) ≤
                c.rules.quality.importCycles.maxCycleLength then true
            else if c.rules.quality.importCycles.ignoreTestPackages &&
                cycle.any (fun pkg =>
                  strContains pkg "_test" || strContains pkg "/test") then
              true
            else false
          else false
      | none => false
    if blockedByConfig then none
    else if getPackagePathFromFile filename ∈ cycle then
      some ⟨issueImportCycle, calculateCycleSeverity cfg cycle.length,
        filename, ""⟩
    else none

/-- A source file as the import-cycle visitor observes it: the package
name from the `*ast.File` node and, per IMPORT `GenDecl`, the raw quoted
spec paths in order. -/
structure GoFile where
  packageName : String
  importDecls : List (List String)
deriving Repr

/-- `ImportCycleDetector.Detect` (part_004 lines 206-224) for one file:
walk the file (recording packages), then extract cycles from everything
recorded so far and report the ones involving this file. -/
def importCycleDetectFile (cfg : Option Config) (pkgs : Packages)
    (filename : String) (file : GoFile) : Packages × List Issue :=
  let pkgs := file.importDecls.foldl
    (fun acc decl => processImports cfg filename file.packageName decl acc)
    pkgs
  let cycles := findCycles pkgs (pkgs.map (·.1))
  (pkgs, cycles.filterMap (createCycleIssue cfg filename))

/-- A whole analyzer run over a file list: the detector instance (and its
package map) is shared across files, `Detect` running once per file in
order.  Returns each file's issue list. -/
def importCycleRunAux (cfg : Option Config) (pkgs : Packages) :
    List (String × GoFile) → List (String × List Issue)
  | [] => []
  | (filename, file) :: rest =>
      let (pkgs', issues) := importCycleDetectFile cfg pkgs filename file
      (filename, issues) :: importCycleRunAux cfg pkgs' rest

def importCycleRun (cfg : Option Config) (files : List (String × GoFile)) :
    List (String × List Issue) :=
  importCycleRunAux cfg [] files

/-- A file with one import declaration holding one spec (raw value still
quoted, as in the syntax tree). -/
def oneImportFile (pkgName imp : String) : GoFile :=
  { packageName := pkgName, importDecls := [["\"" ++ imp ++ "\""]] }

/-- Six single-package files forming the import cycle
a → b → c → d → e → f → a: six edges, exceeding the default maximum cycle
length of 5. -/
def sixCycleFiles : List (String × GoFile) :=
  [("a/a.go", oneImportFile "a" "./b"),
   ("b/b.go", oneImportFile "b" "./c"),
   ("c/c.go", oneImportFile "c" "./d"),
   ("d/d.go", oneImportFile "d" "./e"),
   ("e/e.go", oneImportFile "e" "./f"),
   ("f/f.go", oneImportFile "f" "./a")]

/-- The per-file findings of the run over `sixCycleFiles` under the
default configuration: nothing for the first five files, one High finding
on the last. -/
def sixCycleExpected : List (String × List Issue) :=
  [("a/a.go", []), ("b/b.go", []), ("c/c.go", []), ("d/d.go", []),
   ("e/e.go", []),
   ("f/f.go", [⟨issueImportCycle, .high, "f/f.go", ""⟩])]

/-- C3 counterexample: in a six-edge cycle (exceeding the default maximum
of 5), the participant file visited first receives zero import-cycle
findings, not one — `Detect` extracts cycles after every file over the
packages recorded so far, and when the earlier files are processed the
cycle is not yet complete; only the last participant file gets the (one)
finding. -/
theorem C3_counterexample :
    (importCycleRun (some defaultConfig) sixCycleFiles).lookup "a/a.go" =
      some [] ∧
    importCycleRun (some defaultConfig) sixCycleFiles = sixCycleExpected ∧
    ([] : List Issue).length ≠ 1 := by
  refine ⟨rfl, rfl, by decide⟩

/-- C3 (amended): a cycle whose edge count is at most the configured
maximum is never reported for any file (under any enabled configuration);
cycle extraction runs after each file's visit over the packages collected
so far, so a cycle exceeding the maximum yields exactly one finding in the
whole run, attached to the participant file visited last — concretely, the
six-edge cycle run reports nothing on the first five files and one High
finding on the sixth. -/
theorem C3_cycle_reporting :
    (∀ (c : Config) (filename : String) (cycle : List String),
      c.rules.quality.importCycles.enabled = true →
      ((cycle.length : Int) - 1) ≤
          c.rules.quality.importCycles.maxCycleLength →
      createCycleIssue (some c) filename cycle = none) ∧
    importCycleRun (some defaultConfig) sixCycleFiles = sixCycleExpected := by
  refine ⟨fun c filename cycle hEn hLe => ?_, rfl⟩
  unfold createCycleIssue
  by_cases h2 : cycle.length < 2
  · rw [if_pos h2]
  · rw [if_neg h2]
    simp only [hEn, if_true, if_pos hLe]

/-- C3 witness: the suppression branch of the theorem applied to a
two-edge cycle under the default configuration. -/
theorem C3_cycle_reporting_witness :
    defaultConfig.rules.quality.importCycles.enabled = true ∧
    (((["a", "b", "a"] : List String).length : Int) - 1) ≤
      defaultConfig.rules.quality.importCycles.maxCycleLength ∧
    createCycleIssue (some defaultConfig) "a/a.go" ["a", "b", "a"] = none :=
  ⟨rfl, by decide,
   C3_cycle_reporting.1 defaultConfig "a/a.go" ["a", "b", "a"] rfl (by decide)⟩

/-- The severity rule exactly as the claim words it — a function of the
ratio of the cycle's *edge count* to the configured maximum (definition
follows the spec's words, for comparison with the source's
`calculateCycleSeverity`). -/
def specEdgeRatioSeverity (edgeCount maxLen : Nat) : Severity :=
  if 2 * edgeCount ≥ 3 * maxLen then .critical
  else if 5 * edgeCount ≥ 6 * maxLen then .high
  else if edgeCount ≥ maxLen then .medium
  else .low

/-- A reported cycle with seven edges: the path list carries the start
package twice, so its length is eight. -/
def sevenEdgeCycle : List String :=
  ["p1", "p2", "p3", "p4", "p5", "p6", "p7", "p1"]

/-- C4 counterexample: for a seven-edge cycle under the default maximum 5,
the edge-count ratio is 7/5 = 140% — High by the claim's rule — but the
source passes `len(cycle)` (edges + 1 = 8) to `calculateCycleSeverity`,
giving ratio 8/5 = 160% and severity Critical. -/
theorem C4_counterexample :
    createCycleIssue (some defaultConfig) "p1/p1.go" sevenEdgeCycle =
      some ⟨issueImportCycle, .critical, "p1/p1.go", ""⟩ ∧
    sevenEdgeCycle.length - 1 = 7 ∧
    specEdgeRatioSeverity 7 5 = .high ∧
    Severity.critical ≠ Severity.high := by
  refine ⟨rfl, rfl, rfl, by decide⟩

/-- C4 (amended): for every reported import cycle the severity is
determined by the ratio of the path-list length — the edge count plus
one — to the configured maximum: at least 150% gives Critical, at least
120% High, at least 100% Medium; and given the exceeds-maximum reporting
gate the Low branch is unreachable. -/
theorem C4_severity_rule (c : Config) (filename : String)
    (cycle : List String) (issue : Issue)
    (hEn : c.rules.quality.importCycles.enabled = true)
    (hMax : 1 ≤ c.rules.quality.importCycles.maxCycleLength)
    (hSome : createCycleIssue (some c) filename cycle = some issue) :
    issue.severity = calculateCycleSeverity (some c) cycle.length ∧
    issue.severity ≠ Severity.low := by
  unfold createCycleIssue at hSome
  by_cases h2 : cycle.length < 2
  · rw [if_pos h2] at hSome
    exact absurd hSome (by simp)
  · rw [if_neg h2] at hSome
    simp only [hEn, if_true] at hSome
    by_cases hLe : ((cycle.length : Int) - 1) ≤
        c.rules.quality.importCycles.maxCycleLength
    · rw [if_pos hLe] at hSome
      simp at hSome
    · rw [if_neg hLe] at hSome
      have hGt : (cycle.length : Int) >
          c.rules.quality.importCycles.maxCycleLength := by omega
      by_cases hTest : (c.rules.quality.importCycles.ignoreTestPackages &&
          cycle.any (fun pkg =>
            strContains pkg "_test" || strContains pkg "/test")) = true
      · rw [if_pos hTest] at hSome
        simp at hSome
      · rw [if_neg hTest] at hSome
        simp only [if_neg (by simp : ¬(false = true))] at hSome
        by_cases hIn : getPackagePathFromFile filename ∈ cycle
        · rw [if_pos hIn] at hSome
          have hissue : issue = ⟨issueImportCycle,
              calculateCycleSeverity (some c) cycle.length, filename, ""⟩ := by
            exact (Option.some_injective _ hSome).symm
          subst hissue
          refine ⟨rfl, ?_⟩
          show calculateCycleSeverity (some c) cycle.length ≠ Severity.low
          unfold calculateCycleSeverity cycleMaxLength
          simp only [hEn, if_true]
          rw [if_pos (by omega :
            (0 : Int) < c.rules.quality.importCycles.maxCycleLength)]
          split
          · decide
          · split
            · decide
            · rw [if_pos (by omega : (cycle.length : Int) ≥
                c.rules.quality.importCycles.maxCycleLength)]
              decide
        · rw [if_neg hIn] at hSome
          simp at hSome

/-- C4 witness: the theorem applied to the reported seven-edge cycle under
the default configuration. -/
theorem C4_severity_rule_witness :
    defaultConfig.rules.quality.importCycles.enabled = true ∧
    1 ≤ defaultConfig.rules.quality.importCycles.maxCycleLength ∧
    createCycleIssue (some defaultConfig) "p1/p1.go" sevenEdgeCycle =
      some ⟨issueImportCycle, .critical, "p1/p1.go", ""⟩ ∧
    ((⟨issueImportCycle, .critical, "p1/p1.go", ""⟩ : Issue).severity =
        calculateCycleSeverity (some defaultConfig) sevenEdgeCycle.length ∧
      (⟨issueImportCycle, .critical, "p1/p1.go", ""⟩ : Issue).severity ≠
        Severity.low) :=
  ⟨rfl, by decide, rfl,
   C4_severity_rule defaultConfig "p1/p1.go" sevenEdgeCycle
     ⟨issueImportCycle, .critical, "p1/p1.go", ""⟩ rfl (by decide) rfl⟩

end GopherCheck
